import Mathlib

/-!
Verification of the trust-chain resolution core of an OpenID Federation
library, shallowly embedded from the TypeScript source.

The embedding covers:
* the resolver `resolveTrustChains` (src/packages/core/src/resolveTrustChains/resolveTrustChains.ts),
  parameterised over the policy collaborators (`combineMetadataPolicies`,
  `applyMetadataPolicyToMetadata`, `mergeMetadata`) whose implementation is
  not part of the examined sources, and over the two external fetch
  collaborators;
* the entity-statement claims schema's duplicate-key-id refinement
  (entityStatementClaimsSchema's superRefine step).

JavaScript particulars are modelled explicitly: indexing out of range
yields an optional value, and a property access on a missing (undefined)
object is a thrown TypeError.
-/

instance {ε α : Type} [DecidableEq ε] [DecidableEq α] : DecidableEq (Except ε α) := fun a b =>
  match a, b with
  | .error e, .error f => decidable_of_iff (e = f) (by simp)
  | .ok x, .ok y => decidable_of_iff (x = y) (by simp)
  | .error _, .ok _ => isFalse (by simp)
  | .ok _, .error _ => isFalse (by simp)

/-- A JSON-like value domain for metadata attributes and policy-operator
arguments. -/
inductive JsonValue where
  | str : String → JsonValue
  | num : Int → JsonValue
  | bool : Bool → JsonValue
  | strs : List String → JsonValue
  | null : JsonValue
  deriving DecidableEq, Repr

/-- Metadata: metadata-type → attribute name → value, as an association list. -/
abbrev Metadata := List (String × List (String × JsonValue))

/-- Metadata policy: metadata-type → attribute name → operator name → argument. -/
abbrev MetadataPolicy := List (String × List (String × List (String × JsonValue)))

instance : DecidableEq Metadata := inferInstance

instance : DecidableEq MetadataPolicy := inferInstance

/-- A JSON Web Key; only the fields the examined checks inspect are kept.
The key id is optional. -/
structure JsonWebKey where
  kty : String
  kid : Option String
  deriving DecidableEq, Repr

/-- A JSON Web Key set: an object with a list of keys. -/
structure JsonWebKeySet where
  keys : List JsonWebKey
  deriving DecidableEq, Repr

/-- Claims of an entity configuration (a self-signed statement). Validity
instants are modelled as integers. -/
structure EntityConfigurationClaims where
  iss : String
  sub : String
  iat : Int
  exp : Int
  jwks : JsonWebKeySet
  metadata : Option Metadata
  authority_hints : Option (List String)
  deriving DecidableEq, Repr

/-- Claims of an entity statement issued by a superior about a subordinate. -/
structure EntityStatementClaims where
  iss : String
  sub : String
  iat : Int
  exp : Int
  jwks : JsonWebKeySet
  metadata : Option Metadata
  metadata_policy : Option MetadataPolicy
  metadata_policy_crit : Option (List String)
  crit : Option (List String)
  deriving DecidableEq, Repr

/-- The classification the resolver performs on errors thrown by
combineMetadataPolicies: PolicyOperatorMergeError, the metadata_policy_crit
error recognised by OpenIdFederationError.isMetadataPolicyCritError, or any
other thrown error. -/
inductive CombineError where
  | operatorMerge : CombineError
  | critUnsupported : CombineError
  | other : CombineError
  deriving DecidableEq, Repr

/-- The classification the resolver performs on errors thrown by
applyMetadataPolicyToMetadata: PolicyValidationError or any other error. -/
inductive ApplyError where
  | validation : ApplyError
  | other : ApplyError
  deriving DecidableEq, Repr

/-- Errors that escape the resolver to its caller: a JavaScript TypeError
from a property access on undefined, or the explicit
OpenIdFederationError thrown when no trust-anchor entity configuration is
found. -/
inductive ResolveError where
  | typeError : ResolveError
  | noTrustAnchorEntityConfiguration : ResolveError
  deriving DecidableEq, Repr

/-- The resolver's result record for one surviving candidate. -/
structure TrustChain where
  valid : Bool
  chain : List EntityStatementClaims
  rawLeafEntityConfiguration : EntityConfigurationClaims
  resolvedLeafMetadata : Option Metadata
  trustAnchorEntityConfiguration : EntityConfigurationClaims
  deriving DecidableEq, Repr

/-- The three policy collaborators the resolver calls. Their implementation
lives outside the examined sources, so the resolver is verified for every
choice of them; `mergeMetadata` is total by type, matching the merger's
contract. Combination and application model thrown errors as `Except`. -/
structure Policies where
  combineMetadataPolicies : List EntityStatementClaims → Except CombineError MetadataPolicy
  applyMetadataPolicyToMetadata : Metadata → MetadataPolicy → Except ApplyError Metadata
  mergeMetadata : Metadata → Metadata → Metadata

/-- Processing of one candidate entity-configuration chain by the loop body
of resolveTrustChains: `.ok none` is a silent discard (a continue), `.ok
(some tc)` a push of `tc`, `.error e` a thrown error. `fetchStatements`
embeds the external fetchEntityStatementChain collaborator; the statement
chain it returns is already verified. -/
def processCandidate (P : Policies) (now : Int)
    (fetchStatements : List EntityConfigurationClaims → List EntityStatementClaims)
    (entityConfigurationChain : List EntityConfigurationClaims) :
    Except ResolveError (Option TrustChain) :=
  let entityStatementChain := fetchStatements entityConfigurationChain
  if entityStatementChain.length = 0 then .ok none
  else if entityStatementChain.any (fun statement => statement.exp < now) then .ok none
  else
    let leafEntityConfigurationOpt := entityConfigurationChain[0]?
    if entityStatementChain.length = 1 then
      match leafEntityConfigurationOpt with
      | none => .error .typeError
      | some leafEntityConfiguration =>
        .ok (some
          { valid := true
            chain := entityStatementChain
            trustAnchorEntityConfiguration := leafEntityConfiguration
            rawLeafEntityConfiguration := leafEntityConfiguration
            resolvedLeafMetadata := leafEntityConfiguration.metadata })
    else
      let statementsWithoutLeaf := entityStatementChain.dropLast
      match P.combineMetadataPolicies statementsWithoutLeaf with
      | .error _ => .ok none
      | .ok mergedPolicy =>
        match leafEntityConfigurationOpt with
        | none => .error .typeError
        | some leafEntityConfiguration =>
          let superiorStatementOpt := statementsWithoutLeaf[0]?
          let mergedLeafMetadata := P.mergeMetadata
            (leafEntityConfiguration.metadata.getD [])
            ((superiorStatementOpt.bind (fun s => s.metadata)).getD [])
          match P.applyMetadataPolicyToMetadata mergedLeafMetadata mergedPolicy with
          | .error _ => .ok none
          | .ok resolvedLeafMetadata =>
            match entityConfigurationChain.getLast? with
            | none => .error .noTrustAnchorEntityConfiguration
            | some trustAnchorEntityConfiguration =>
              .ok (some
                { valid := true
                  chain := entityStatementChain
                  trustAnchorEntityConfiguration := trustAnchorEntityConfiguration
                  rawLeafEntityConfiguration := leafEntityConfiguration
                  resolvedLeafMetadata := some resolvedLeafMetadata })

/-- The loop of resolveTrustChains over the candidate chains returned by
the external fetchEntityConfigurationChains collaborator, with `now` the
single instant read at the start of the call. Pushes accumulate in order;
a thrown error aborts the whole call. -/
def resolveTrustChains (P : Policies) (now : Int)
    (fetchStatements : List EntityConfigurationClaims → List EntityStatementClaims)
    (entityConfigurationChains : List (List EntityConfigurationClaims)) :
    Except ResolveError (List TrustChain) :=
  match entityConfigurationChains with
  | [] => .ok []
  | c :: rest =>
    match processCandidate P now fetchStatements c with
    | .error e => .error e
    | .ok none => resolveTrustChains P now fetchStatements rest
    | .ok (some tc) =>
      match resolveTrustChains P now fetchStatements rest with
      | .error e => .error e
      | .ok l => .ok (tc :: l)

/-- resolveTrustChains with an explicit clock: the source reads the clock
exactly once, `const now = new Date()`, before processing any candidate;
`clock n` is the value the n-th clock read would return. -/
def resolveTrustChainsWithClock (P : Policies) (clock : Nat → Int)
    (fetchStatements : List EntityConfigurationClaims → List EntityStatementClaims)
    (entityConfigurationChains : List (List EntityConfigurationClaims)) :
    Except ResolveError (List TrustChain) :=
  let now := clock 0
  resolveTrustChains P now fetchStatements entityConfigurationChains

/-- The superRefine step of entityStatementClaimsSchema: map every key to
its (optional) kid and flag the set when some kid's first index differs
from its own index. In JavaScript, absent kids are `undefined` and compare
equal under the strict equality indexOf uses. -/
def jwksHasDuplicateKeyIds (jwks : JsonWebKeySet) : Bool :=
  let keyIds := jwks.keys.map (fun key => key.kid)
  keyIds.enum.any (fun p => keyIds.indexOf p.2 ≠ p.1)

/-- entityStatementClaimsSchema's refinement outcome on a structurally
well-typed claims object: it is accepted exactly when the duplicate-kid
check raises no issue. -/
def entityStatementClaimsSchemaAccepts (data : EntityStatementClaims) : Bool :=
  !jwksHasDuplicateKeyIds data.jwks

/-!
Spec-modelled policy collaborators. The implementations of
combineMetadataPolicies, applyMetadataPolicyToMetadata and mergeMetadata
are declared in the resolver's policies module but are not among the
examined sources; the definitions below model them from the specification
so that the resolver can be exercised on concrete inputs and so that
combiner-level properties can be settled.
-/

/-- Modelled from the spec: the combiner's set of recognised metadata-policy
operators (fixed-value, additive, default-value, essential marking, and the
set-membership operators of one-of/subset/superset style). -/
def knownPolicyOperators : List String :=
  ["value", "add", "default", "essential", "one_of", "subset_of", "superset_of"]

/-- Modelled from the spec: per-operator combination of two contributed
arguments for the same attribute. Fixed values must agree exactly;
set-membership operators narrow by intersection (one_of, subset_of) or
accumulate (superset_of, add); essential markings disjoin; any other
disagreement is an operator-merge failure. -/
def mergeOperatorEntry (opName : String) (oldArg newArg : JsonValue) :
    Except CombineError JsonValue :=
  if opName = "one_of" ∨ opName = "subset_of" then
    match oldArg, newArg with
    | .strs a, .strs b => .ok (.strs (a.filter (fun x => b.contains x)))
    | _, _ => if oldArg = newArg then .ok oldArg else .error .operatorMerge
  else if opName = "superset_of" ∨ opName = "add" then
    match oldArg, newArg with
    | .strs a, .strs b => .ok (.strs (a ++ b.filter (fun x => !a.contains x)))
    | _, _ => if oldArg = newArg then .ok oldArg else .error .operatorMerge
  else if opName = "essential" then
    match oldArg, newArg with
    | .bool a, .bool b => .ok (.bool (a || b))
    | _, _ => if oldArg = newArg then .ok oldArg else .error .operatorMerge
  else
    if oldArg = newArg then .ok oldArg else .error .operatorMerge

/-- Modelled from the spec: insert one contributed operator into the
operator set already accumulated for an attribute. A default-value
operator yields to an already-present fixed-value operator. -/
def insertOperator (acc : List (String × JsonValue)) (opName : String)
    (arg : JsonValue) : Except CombineError (List (String × JsonValue)) :=
  if opName = "default" ∧ acc.any (fun p => p.1 = "value") then .ok acc
  else
    match acc.lookup opName with
    | none => .ok (acc ++ [(opName, arg)])
    | some oldArg => do
      let merged ← mergeOperatorEntry opName oldArg arg
      .ok (acc.map (fun p => if p.1 = opName then (p.1, merged) else p))

/-- Modelled from the spec: combine one attribute's contributed operator
map into the accumulated operator map. -/
def combineAttrOperators (acc contribution : List (String × JsonValue)) :
    Except CombineError (List (String × JsonValue)) :=
  contribution.foldlM (fun m p => insertOperator m p.1 p.2) acc

/-- Modelled from the spec: combine one statement's policy for a single
metadata type into the accumulated per-type policy. -/
def combineTypePolicy (acc contribution : List (String × List (String × JsonValue))) :
    Except CombineError (List (String × List (String × JsonValue))) :=
  contribution.foldlM
    (fun m q =>
      match m.lookup q.1 with
      | none => .ok (m ++ [q])
      | some existing => do
        let merged ← combineAttrOperators existing q.2
        .ok (m.map (fun p => if p.1 = q.1 then (p.1, merged) else p)))
    acc

/-- Modelled from the spec: fold one statement's whole metadata policy into
the accumulated combined policy. -/
def combinePolicyInto (acc contribution : MetadataPolicy) :
    Except CombineError MetadataPolicy :=
  contribution.foldlM
    (fun m q =>
      match m.lookup q.1 with
      | none => .ok (m ++ [q])
      | some existing => do
        let merged ← combineTypePolicy existing q.2
        .ok (m.map (fun p => if p.1 = q.1 then (p.1, merged) else p)))
    acc

/-- Modelled from the spec: combineMetadataPolicies. If any statement's
metadata_policy_crit names an operator outside the recognised set,
combination fails with the distinct critical-policy-unsupported condition;
otherwise the statements' policies are folded in order, from the subject's
immediate superior toward the trust anchor. -/
def combineMetadataPoliciesSpec (statements : List EntityStatementClaims) :
    Except CombineError MetadataPolicy :=
  if statements.any
      (fun s => (s.metadata_policy_crit.getD []).any
        (fun opName => !knownPolicyOperators.contains opName)) then
    .error .critUnsupported
  else
    statements.foldlM (fun acc s => combinePolicyInto acc (s.metadata_policy.getD [])) []

/-- Modelled from the spec: apply the combined operator map of one
attribute to its (possibly absent) input value. A fixed value forces the
result, a default fills an absent value, set-membership operators validate
the value, and an essential marking fails validation when the attribute is
still absent after all operators are applied. -/
def applyOperatorsToValue (ops : List (String × JsonValue)) (v : Option JsonValue) :
    Except ApplyError (Option JsonValue) :=
  let afterValue : Option JsonValue :=
    match ops.lookup "value" with
    | some arg => some arg
    | none => v
  let afterDefault : Option JsonValue :=
    match afterValue, ops.lookup "default" with
    | none, some arg => some arg
    | x, _ => x
  let oneOfOk : Bool :=
    match ops.lookup "one_of", afterDefault with
    | some (.strs allowed), some (.str s) => allowed.contains s
    | some _, some _ => false
    | _, _ => true
  let subsetOk : Bool :=
    match ops.lookup "subset_of", afterDefault with
    | some (.strs allowed), some (.strs vs) => vs.all (fun x => allowed.contains x)
    | some _, some _ => false
    | _, _ => true
  let supersetOk : Bool :=
    match ops.lookup "superset_of", afterDefault with
    | some (.strs required), some (.strs vs) => required.all (fun x => vs.contains x)
    | some _, some _ => false
    | _, _ => true
  let essentialOk : Bool :=
    match ops.lookup "essential", afterDefault with
    | some (.bool true), none => false
    | _, _ => true
  if oneOfOk && subsetOk && supersetOk && essentialOk then .ok afterDefault
  else .error .validation

/-- Update an attribute in an attribute map: a none result removes it, a
some result replaces or appends it. -/
def setAttrValue (attrs : List (String × JsonValue)) (name : String)
    (v : Option JsonValue) : List (String × JsonValue) :=
  match v with
  | none => attrs.filter (fun p => p.1 ≠ name)
  | some value =>
    if attrs.any (fun p => p.1 = name) then
      attrs.map (fun p => if p.1 = name then (p.1, value) else p)
    else attrs ++ [(name, value)]

/-- Modelled from the spec: applyMetadataPolicyToMetadata. Every
policy-governed attribute is resolved through its operator map; attributes
the policy does not mention pass through unchanged; the first validation
failure fails the whole application. -/
def applyMetadataPolicyToMetadataSpec (leafMetadata : Metadata)
    (policyMetadata : MetadataPolicy) : Except ApplyError Metadata :=
  policyMetadata.foldlM
    (fun md typeEntry => do
      let attrs := (md.lookup typeEntry.1).getD []
      let newAttrs ← typeEntry.2.foldlM
        (fun acc attrEntry => do
          let resolved ← applyOperatorsToValue attrEntry.2 (acc.lookup attrEntry.1)
          pure (setAttrValue acc attrEntry.1 resolved))
        attrs
      if md.any (fun p => p.1 = typeEntry.1) then
        pure (md.map (fun p => if p.1 = typeEntry.1 then (p.1, newAttrs) else p))
      else pure (md ++ [(typeEntry.1, newAttrs)]))
    leafMetadata

/-- Modelled from the spec: mergeMetadata. The merge is deterministic and
total; the spec leaves the precedence on key conflicts open, so one
deterministic rule is fixed here: for every metadata type, the superior's
asserted attribute values override the subject's self-asserted ones. -/
def mergeMetadataSpec (leafMetadata superiorMetadata : Metadata) : Metadata :=
  let leafTypes := leafMetadata.map Prod.fst
  let types := leafTypes ++ (superiorMetadata.map Prod.fst).filter
    (fun t => !leafTypes.contains t)
  types.map
    (fun t =>
      let leafAttrs := (leafMetadata.lookup t).getD []
      let supAttrs := (superiorMetadata.lookup t).getD []
      (t, leafAttrs.filter (fun p => !supAttrs.any (fun q => q.1 = p.1)) ++ supAttrs))

/-- The policy collaborators instantiated with the spec-modelled
implementations. -/
def specPolicies : Policies :=
  { combineMetadataPolicies := combineMetadataPoliciesSpec
    applyMetadataPolicyToMetadata := applyMetadataPolicyToMetadataSpec
    mergeMetadata := mergeMetadataSpec }

/-!
Concrete fixtures for witnesses and counterexamples.
-/

/-- A sample JSON Web Key with key id key-1. -/
def sampleKey : JsonWebKey := { kty := "EC", kid := some "key-1" }

/-- A singleton key set. -/
def sampleJwks : JsonWebKeySet := { keys := [sampleKey] }

/-- A leaf entity configuration asserting one metadata attribute. -/
def leafConfigFx : EntityConfigurationClaims :=
  { iss := "https://leaf.example.org"
    sub := "https://leaf.example.org"
    iat := 0
    exp := 100
    jwks := sampleJwks
    metadata := some [("openid_provider", [("organization_name", .str "A")])]
    authority_hints := some ["https://anchor.example.org"] }

/-- A trust anchor's own entity configuration. -/
def anchorConfigFx : EntityConfigurationClaims :=
  { iss := "https://anchor.example.org"
    sub := "https://anchor.example.org"
    iat := 0
    exp := 100
    jwks := sampleJwks
    metadata := none
    authority_hints := none }

/-- A statement by the anchor about the leaf carrying no policy. -/
def cleanStatementFx : EntityStatementClaims :=
  { iss := "https://anchor.example.org"
    sub := "https://leaf.example.org"
    iat := 0
    exp := 100
    jwks := sampleJwks
    metadata := none
    metadata_policy := none
    metadata_policy_crit := none
    crit := none }

/-- The anchor's self-issued terminal statement, declaring a
metadata_policy_crit entry for an operator outside the recognised set. -/
def critTerminalStatementFx : EntityStatementClaims :=
  { iss := "https://anchor.example.org"
    sub := "https://anchor.example.org"
    iat := 0
    exp := 100
    jwks := sampleJwks
    metadata := none
    metadata_policy := none
    metadata_policy_crit := some ["frobnicate"]
    crit := none }

/-- An already-expired statement. -/
def expiredStatementFx : EntityStatementClaims :=
  { iss := "https://anchor.example.org"
    sub := "https://leaf.example.org"
    iat := -10
    exp := -1
    jwks := sampleJwks
    metadata := none
    metadata_policy := none
    metadata_policy_crit := none
    crit := none }

/-- A statement fixing organization_name to Org by a fixed-value operator. -/
def valuePolicyStatementFx : EntityStatementClaims :=
  { iss := "https://intermediate.example.org"
    sub := "https://leaf.example.org"
    iat := 0
    exp := 100
    jwks := sampleJwks
    metadata := some [("openid_provider", [("contacts", .str "ops@example.org")])]
    metadata_policy := some [("openid_provider", [("organization_name", [("value", .str "Org")])])]
    metadata_policy_crit := none
    crit := none }

/-- A statement fixing organization_name to OrgB, conflicting with
valuePolicyStatementFx. -/
def conflictingPolicyStatementFx : EntityStatementClaims :=
  { iss := "https://anchor.example.org"
    sub := "https://intermediate.example.org"
    iat := 0
    exp := 100
    jwks := sampleJwks
    metadata := none
    metadata_policy := some [("openid_provider", [("organization_name", [("value", .str "OrgB")])])]
    metadata_policy_crit := none
    crit := none }

/-!
Helper lemmas about the resolver loop.
-/

theorem processCandidate_ok_none_of_fetch_nil (P : Policies) (now : Int)
    (fetchStatements : List EntityConfigurationClaims → List EntityStatementClaims)
    (c : List EntityConfigurationClaims) (h : fetchStatements c = []) :
    processCandidate P now fetchStatements c = .ok none := by
  unfold processCandidate
  simp [h]

theorem processCandidate_ok_none_of_expired (P : Policies) (now : Int)
    (fetchStatements : List EntityConfigurationClaims → List EntityStatementClaims)
    (c : List EntityConfigurationClaims) (s : EntityStatementClaims)
    (hs : s ∈ fetchStatements c) (hexp : s.exp < now) :
    processCandidate P now fetchStatements c = .ok none := by
  unfold processCandidate
  have hany : ((fetchStatements c).any fun statement => decide (statement.exp < now)) = true := by
    rw [List.any_eq_true]
    exact ⟨s, hs, by simpa using hexp⟩
  by_cases h0 : (fetchStatements c).length = 0
  · simp [h0]
  · simp [h0, hany]

theorem resolveTrustChains_skip (P : Policies) (now : Int)
    (fetchStatements : List EntityConfigurationClaims → List EntityStatementClaims)
    (l₁ l₂ : List (List EntityConfigurationClaims)) (c : List EntityConfigurationClaims)
    (h : processCandidate P now fetchStatements c = .ok none) :
    resolveTrustChains P now fetchStatements (l₁ ++ c :: l₂) =
      resolveTrustChains P now fetchStatements (l₁ ++ l₂) := by
  induction l₁ with
  | nil => simp [resolveTrustChains, h]
  | cons a as ih =>
    simp only [List.cons_append, resolveTrustChains, List.append_eq]
    rw [ih]

/-- C1: for every candidate entity-configuration chain processed by
resolveTrustChains, if any position of its verified entity-statement chain
holds a statement whose expiry is strictly before the resolution-start
instant, then the result is exactly the result of the call without that
candidate: no TrustChain derived from it appears in the returned list. -/
theorem resolveTrustChains_excludes_expired_candidate (P : Policies) (now : Int)
    (fetchStatements : List EntityConfigurationClaims → List EntityStatementClaims)
    (pre post : List (List EntityConfigurationClaims)) (c : List EntityConfigurationClaims)
    (i : Nat) (s : EntityStatementClaims)
    (hget : (fetchStatements c)[i]? = some s) (hexp : s.exp < now) :
    resolveTrustChains P now fetchStatements (pre ++ c :: post) =
      resolveTrustChains P now fetchStatements (pre ++ post) :=
  resolveTrustChains_skip P now fetchStatements pre post c
    (processCandidate_ok_none_of_expired P now fetchStatements c s
      (List.getElem?_mem hget) hexp)

/-- Witness for C1: a one-statement chain expired at instant -1 is excluded
when resolution starts at instant 0. -/
theorem resolveTrustChains_excludes_expired_candidate_witness :
    ((fun _ : List EntityConfigurationClaims => [expiredStatementFx]) [leafConfigFx])[0]? =
        some expiredStatementFx ∧
    expiredStatementFx.exp < 0 ∧
    resolveTrustChains specPolicies 0 (fun _ => [expiredStatementFx]) [[leafConfigFx]] =
      resolveTrustChains specPolicies 0 (fun _ => [expiredStatementFx]) [] :=
  ⟨rfl, by decide,
    resolveTrustChains_excludes_expired_candidate specPolicies 0
      (fun _ => [expiredStatementFx]) [] [] [leafConfigFx] 0 expiredStatementFx rfl (by decide)⟩

/-- C2: a candidate whose verified entity-statement chain has exactly one
element yields a TrustChain whose resolvedLeafMetadata is the subject's raw
metadata unchanged and whose trustAnchorEntityConfiguration is element 0 of
the configuration chain; the conclusion holds for every choice of the
policy collaborators, so no combination, merge or application is involved. -/
theorem resolveTrustChains_degenerate_chain (P : Policies) (now : Int)
    (fetchStatements : List EntityConfigurationClaims → List EntityStatementClaims)
    (c : List EntityConfigurationClaims) (leaf : EntityConfigurationClaims)
    (s : EntityStatementClaims)
    (hfetch : fetchStatements c = [s]) (hexp : ¬ s.exp < now) (hleaf : (c)[0]? = some leaf) :
    processCandidate P now fetchStatements c = .ok (some
      { valid := true
        chain := [s]
        trustAnchorEntityConfiguration := leaf
        rawLeafEntityConfiguration := leaf
        resolvedLeafMetadata := leaf.metadata }) ∧
    resolveTrustChains P now fetchStatements [c] = .ok
      [{ valid := true
         chain := [s]
         trustAnchorEntityConfiguration := leaf
         rawLeafEntityConfiguration := leaf
         resolvedLeafMetadata := leaf.metadata }] := by
  have h1 : processCandidate P now fetchStatements c = .ok (some
      { valid := true
        chain := [s]
        trustAnchorEntityConfiguration := leaf
        rawLeafEntityConfiguration := leaf
        resolvedLeafMetadata := leaf.metadata }) := by
    unfold processCandidate
    simp [hfetch, hleaf, hexp]
  exact ⟨h1, by simp [resolveTrustChains, h1]⟩

/-- Witness for C2: a single clean statement at instant 0 yields the
subject's own configuration as trust anchor and its raw metadata. -/
theorem resolveTrustChains_degenerate_chain_witness :
    (fun _ : List EntityConfigurationClaims => [cleanStatementFx]) [leafConfigFx] =
        [cleanStatementFx] ∧
    ¬ cleanStatementFx.exp < 0 ∧
    ([leafConfigFx] : List EntityConfigurationClaims)[0]? = some leafConfigFx ∧
    resolveTrustChains specPolicies 0 (fun _ => [cleanStatementFx]) [[leafConfigFx]] = .ok
      [{ valid := true
         chain := [cleanStatementFx]
         trustAnchorEntityConfiguration := leafConfigFx
         rawLeafEntityConfiguration := leafConfigFx
         resolvedLeafMetadata := leafConfigFx.metadata }] :=
  ⟨rfl, by decide, rfl,
    (resolveTrustChains_degenerate_chain specPolicies 0 (fun _ => [cleanStatementFx])
      [leafConfigFx] leafConfigFx cleanStatementFx rfl (by decide) rfl).2⟩

/-- A candidate whose configuration chain is non-empty can never make the
loop body throw: every discard reason is recovered into a silent skip. -/
theorem processCandidate_isOk_of_ne_nil (P : Policies) (now : Int)
    (fetchStatements : List EntityConfigurationClaims → List EntityStatementClaims)
    (c : List EntityConfigurationClaims) (h : c ≠ []) :
    (processCandidate P now fetchStatements c).isOk = true := by
  rcases c with _ | ⟨a, as⟩
  · exact absurd rfl h
  obtain ⟨ta, hta⟩ : ∃ ta, (a :: as).getLast? = some ta := by
    cases hlast : (a :: as).getLast? with
    | none => simp [List.getLast?_eq_none_iff] at hlast
    | some ta => exact ⟨ta, rfl⟩
  unfold processCandidate
  simp only [List.getElem?_cons_zero, hta]
  repeat' split
  all_goals rfl

/-- C3: per-candidate failures only shrink the output. As long as every
candidate configuration chain is non-empty — the only situation in which
the missing-trust-anchor invariant can be violated — the call returns a
result and never aborts, whatever the policy collaborators do; and a
subject with no verifiable path to any requested anchor (every statement
chain empty) yields the empty list with no error raised. -/
theorem resolveTrustChains_recovers_candidate_failures (P : Policies) (now : Int)
    (fetchStatements : List EntityConfigurationClaims → List EntityStatementClaims)
    (chains : List (List EntityConfigurationClaims)) :
    ((∀ c ∈ chains, c ≠ []) →
      (resolveTrustChains P now fetchStatements chains).isOk = true) ∧
    ((∀ c ∈ chains, fetchStatements c = []) →
      resolveTrustChains P now fetchStatements chains = .ok []) := by
  constructor
  · intro hne
    induction chains with
    | nil => rfl
    | cons a rest ih =>
      have ha : (processCandidate P now fetchStatements a).isOk = true :=
        processCandidate_isOk_of_ne_nil P now fetchStatements a (hne a (by simp))
      have hrest := ih (fun c hc => hne c (List.mem_cons_of_mem a hc))
      rw [resolveTrustChains]
      cases hpa : processCandidate P now fetchStatements a with
      | error e => rw [hpa] at ha; simp [Except.isOk, Except.toBool] at ha
      | ok o =>
        cases o with
        | none => exact hrest
        | some tc =>
          cases hr : resolveTrustChains P now fetchStatements rest with
          | error e => rw [hr] at hrest; simp [Except.isOk, Except.toBool] at hrest
          | ok l => rfl
  · intro hfetch
    induction chains with
    | nil => rfl
    | cons a rest ih =>
      have ha : processCandidate P now fetchStatements a = .ok none :=
        processCandidate_ok_none_of_fetch_nil P now fetchStatements a (hfetch a (by simp))
      rw [resolveTrustChains, ha]
      exact ih (fun c hc => hfetch c (List.mem_cons_of_mem a hc))

/-- Witness for C3: a candidate whose two intermediate statements impose
conflicting fixed values is dropped without aborting the call, and a
subject with no verifiable path yields the empty list. -/
theorem resolveTrustChains_recovers_candidate_failures_witness :
    (resolveTrustChains specPolicies 0
      (fun _ => [valuePolicyStatementFx, conflictingPolicyStatementFx, critTerminalStatementFx])
      [[leafConfigFx, anchorConfigFx]]).isOk = true ∧
    resolveTrustChains specPolicies 0 (fun _ => []) [[leafConfigFx]] = .ok [] :=
  ⟨(resolveTrustChains_recovers_candidate_failures specPolicies 0
      (fun _ => [valuePolicyStatementFx, conflictingPolicyStatementFx, critTerminalStatementFx])
      [[leafConfigFx, anchorConfigFx]]).1 (by decide),
   (resolveTrustChains_recovers_candidate_failures specPolicies 0
      (fun _ => []) [[leafConfigFx]]).2 (by decide)⟩

/-- On the general path the combiner error always turns into a silent
discard; shared helper for the combiner-related claims. -/
theorem processCandidate_ok_none_of_combine_error (P : Policies) (now : Int)
    (fetchStatements : List EntityConfigurationClaims → List EntityStatementClaims)
    (c : List EntityConfigurationClaims) (e : CombineError)
    (h2 : 2 ≤ (fetchStatements c).length)
    (hcomb : P.combineMetadataPolicies ((fetchStatements c).dropLast) = .error e) :
    processCandidate P now fetchStatements c = .ok none := by
  unfold processCandidate
  have h0 : ¬ (fetchStatements c).length = 0 := by omega
  have h1 : ¬ (fetchStatements c).length = 1 := by omega
  by_cases hany : ((fetchStatements c).any fun statement => decide (statement.exp < now)) = true
  · simp [h0, hany]
  · simp [h0, h1, hany, hcomb]

/-- C4: on the general path (statement chain length at least 2) the Policy
Combiner is consulted over exactly the statements excluding the final one:
a combination failure on that sub-sequence discards the candidate without
producing a TrustChain, and the outcome depends on the combiner only
through its value at that sub-sequence. -/
theorem processCandidate_combines_without_terminal (P Q : Policies) (now : Int)
    (fetchStatements : List EntityConfigurationClaims → List EntityStatementClaims)
    (c : List EntityConfigurationClaims)
    (h2 : 2 ≤ (fetchStatements c).length) :
    (∀ e : CombineError,
      P.combineMetadataPolicies ((fetchStatements c).dropLast) = .error e →
      processCandidate P now fetchStatements c = .ok none) ∧
    (Q.combineMetadataPolicies ((fetchStatements c).dropLast) =
        P.combineMetadataPolicies ((fetchStatements c).dropLast) →
      Q.applyMetadataPolicyToMetadata = P.applyMetadataPolicyToMetadata →
      Q.mergeMetadata = P.mergeMetadata →
      processCandidate Q now fetchStatements c = processCandidate P now fetchStatements c) := by
  constructor
  · intro e hcomb
    exact processCandidate_ok_none_of_combine_error P now fetchStatements c e h2 hcomb
  · intro hcomb happly hmerge
    unfold processCandidate
    have h0 : ¬ (fetchStatements c).length = 0 := by omega
    have h1 : ¬ (fetchStatements c).length = 1 := by omega
    simp only [h0, h1, if_false, hcomb, happly, hmerge]

/-- Witness for C4: with conflicting fixed-value policies in the combined
sub-sequence the candidate is dropped, and a combiner that agrees with the
spec-modelled one on the sub-sequence produces the same outcome. -/
theorem processCandidate_combines_without_terminal_witness :
    processCandidate specPolicies 0
      (fun _ => [valuePolicyStatementFx, conflictingPolicyStatementFx, critTerminalStatementFx])
      [leafConfigFx, anchorConfigFx] = .ok none ∧
    processCandidate
      { specPolicies with
        combineMetadataPolicies := fun statements =>
          if statements.length = 1 then combineMetadataPoliciesSpec statements
          else .error .other } 0
      (fun _ => [valuePolicyStatementFx, cleanStatementFx]) [leafConfigFx, anchorConfigFx] =
    processCandidate specPolicies 0
      (fun _ => [valuePolicyStatementFx, cleanStatementFx]) [leafConfigFx, anchorConfigFx] :=
  ⟨(processCandidate_combines_without_terminal specPolicies specPolicies 0
      (fun _ => [valuePolicyStatementFx, conflictingPolicyStatementFx, critTerminalStatementFx])
      [leafConfigFx, anchorConfigFx] (by decide)).1 .operatorMerge (by decide),
   (processCandidate_combines_without_terminal specPolicies
      { specPolicies with
        combineMetadataPolicies := fun statements =>
          if statements.length = 1 then combineMetadataPoliciesSpec statements
          else .error .other } 0
      (fun _ => [valuePolicyStatementFx, cleanStatementFx]) [leafConfigFx, anchorConfigFx]
      (by decide)).2 (by decide) rfl rfl⟩

/-- C5 (amended): a statement within the combined sub-sequence — the
verified statement chain without its final, trust-anchor self-issued
element — whose metadata_policy_crit names an operator outside the
combiner's recognised set makes combination fail with the
critical-policy-unsupported condition, which is distinct from the
operator-merge condition, and the candidate is excluded from the result.
The claim as frozen ranges over every statement of the candidate; the
counterexample shows it fails for the final statement, which the resolver
never hands to the combiner. -/
theorem combine_crit_unsupported_excludes_candidate
    (applyF : Metadata → MetadataPolicy → Except ApplyError Metadata)
    (mergeF : Metadata → Metadata → Metadata) (now : Int)
    (fetchStatements : List EntityConfigurationClaims → List EntityStatementClaims)
    (c : List EntityConfigurationClaims) (s : EntityStatementClaims) (opName : String)
    (h2 : 2 ≤ (fetchStatements c).length)
    (hs : s ∈ (fetchStatements c).dropLast)
    (hop : opName ∈ s.metadata_policy_crit.getD [])
    (hunknown : knownPolicyOperators.contains opName = false) :
    combineMetadataPoliciesSpec ((fetchStatements c).dropLast) = .error .critUnsupported ∧
    CombineError.critUnsupported ≠ CombineError.operatorMerge ∧
    processCandidate
      { combineMetadataPolicies := combineMetadataPoliciesSpec
        applyMetadataPolicyToMetadata := applyF
        mergeMetadata := mergeF } now fetchStatements c = .ok none := by
  have hcomb : combineMetadataPoliciesSpec ((fetchStatements c).dropLast) =
      .error .critUnsupported := by
    unfold combineMetadataPoliciesSpec
    have hany : (((fetchStatements c).dropLast).any
        fun st => (st.metadata_policy_crit.getD []).any
          fun opN => !knownPolicyOperators.contains opN) = true := by
      rw [List.any_eq_true]
      refine ⟨s, hs, ?_⟩
      rw [List.any_eq_true]
      exact ⟨opName, hop, by rw [hunknown]; rfl⟩
    rw [if_pos hany]
  refine ⟨hcomb, by decide, ?_⟩
  exact processCandidate_ok_none_of_combine_error _ now fetchStatements c .critUnsupported h2 hcomb

/-- Counterexample for C5: the candidate's verified statement chain
contains a terminal statement declaring the unrecognised critical policy
operator frobnicate, yet the resolver emits a TrustChain for the
candidate, because the final statement is excluded from combination. -/
theorem crit_in_terminal_statement_not_excluded :
    critTerminalStatementFx ∈
      (fun _ : List EntityConfigurationClaims =>
        [cleanStatementFx, critTerminalStatementFx]) [leafConfigFx, anchorConfigFx] ∧
    "frobnicate" ∈ critTerminalStatementFx.metadata_policy_crit.getD [] ∧
    knownPolicyOperators.contains "frobnicate" = false ∧
    resolveTrustChains specPolicies 0
      (fun _ => [cleanStatementFx, critTerminalStatementFx])
      [[leafConfigFx, anchorConfigFx]] = .ok
      [{ valid := true
         chain := [cleanStatementFx, critTerminalStatementFx]
         trustAnchorEntityConfiguration := anchorConfigFx
         rawLeafEntityConfiguration := leafConfigFx
         resolvedLeafMetadata :=
           some [("openid_provider", [("organization_name", .str "A")])] }] := by
  refine ⟨by decide, by decide, by decide, by decide⟩

/-- Counterexample for C6: a candidate configuration chain lacking a
terminal element (the empty chain) whose statement chain is empty is
silently dropped — the call returns the empty list and raises no error,
contradicting that such a candidate always makes the call throw. -/
theorem missing_trust_anchor_dropped_silently :
    (([] : List EntityConfigurationClaims).getLast? = none) ∧
    resolveTrustChains specPolicies 0 (fun _ => [])
      [([] : List EntityConfigurationClaims)] = .ok [] := by
  refine ⟨rfl, by decide⟩

/-- C6 (amended): a candidate configuration chain lacking a terminal
element makes resolveTrustChains throw only on the processing paths that
reach the leaf configuration's metadata: when the verified statement chain
is non-empty, unexpired, and either degenerate or past a successful policy
combination, the loop body raises an error (a TypeError from reading the
metadata of the missing leaf configuration) that aborts the whole call;
on the earlier-exiting paths (empty statement chain, expired statement,
failed combination) the candidate is silently dropped instead, as the
counterexample shows. -/
theorem missing_trust_anchor_throws_on_surviving_paths (P : Policies) (now : Int)
    (fetchStatements : List EntityConfigurationClaims → List EntityStatementClaims)
    (c : List EntityConfigurationClaims)
    (rest : List (List EntityConfigurationClaims))
    (hlast : c.getLast? = none)
    (hne : fetchStatements c ≠ [])
    (hexp : ∀ s ∈ fetchStatements c, ¬ s.exp < now)
    (hpath : (fetchStatements c).length = 1 ∨
      ∃ pol, P.combineMetadataPolicies ((fetchStatements c).dropLast) = .ok pol) :
    processCandidate P now fetchStatements c = .error .typeError ∧
    resolveTrustChains P now fetchStatements (c :: rest) = .error .typeError := by
  have hc : c = [] := List.getLast?_eq_none_iff.mp hlast
  subst hc
  have h0 : ¬ (fetchStatements []).length = 0 := by
    intro h
    exact hne (List.length_eq_zero.mp h)
  have hany : ((fetchStatements []).any fun statement => decide (statement.exp < now)) = false := by
    rw [List.any_eq_false]
    intro s hs
    simpa using hexp s hs
  have hmain : processCandidate P now fetchStatements [] = .error .typeError := by
    unfold processCandidate
    rcases hpath with h1 | ⟨pol, hcomb⟩
    · simp [h0, hany, h1]
    · by_cases h1 : (fetchStatements []).length = 1
      · simp [h0, hany, h1]
      · simp [h0, hany, h1, hcomb]
  exact ⟨hmain, by rw [resolveTrustChains, hmain]⟩

/-- Witness for C6 (amended): an empty configuration chain with one clean
unexpired statement aborts the call with the modelled TypeError. -/
theorem missing_trust_anchor_throws_on_surviving_paths_witness :
    processCandidate specPolicies 0 (fun _ => [cleanStatementFx]) [] = .error .typeError ∧
    resolveTrustChains specPolicies 0 (fun _ => [cleanStatementFx]) [[]] = .error .typeError :=
  missing_trust_anchor_throws_on_surviving_paths specPolicies 0
    (fun _ => [cleanStatementFx]) [] [] rfl (by decide) (by decide) (Or.inl (by decide))

/-- C7: on the general path, once combination succeeds, the metadata
handed to the Policy Applicator is exactly the merge of the subject's
self-asserted metadata with the metadata asserted by the first statement
of the combined sub-sequence (its immediate superior), an absent side
being replaced by the empty object; the merge step never fails — the
outcome is fully characterised for every total merge function, every
presence combination of the two metadata sides, and every applicator
verdict on the merged object. -/
theorem general_path_applies_policy_to_merged_metadata (P : Policies) (now : Int)
    (fetchStatements : List EntityConfigurationClaims → List EntityStatementClaims)
    (c : List EntityConfigurationClaims) (leaf : EntityConfigurationClaims)
    (pol : MetadataPolicy)
    (h2 : 2 ≤ (fetchStatements c).length)
    (hexp : ∀ s ∈ fetchStatements c, ¬ s.exp < now)
    (hleaf : (c)[0]? = some leaf)
    (hcomb : P.combineMetadataPolicies ((fetchStatements c).dropLast) = .ok pol) :
    processCandidate P now fetchStatements c =
      match P.applyMetadataPolicyToMetadata
          (P.mergeMetadata (leaf.metadata.getD [])
            (((((fetchStatements c).dropLast)[0]?).bind (fun s => s.metadata)).getD []))
          pol with
      | .error _ => .ok none
      | .ok resolved =>
        match c.getLast? with
        | none => .error .noTrustAnchorEntityConfiguration
        | some trustAnchorEntityConfiguration =>
          .ok (some
            { valid := true
              chain := fetchStatements c
              trustAnchorEntityConfiguration := trustAnchorEntityConfiguration
              rawLeafEntityConfiguration := leaf
              resolvedLeafMetadata := some resolved }) := by
  unfold processCandidate
  have h0 : ¬ (fetchStatements c).length = 0 := by omega
  have h1 : ¬ (fetchStatements c).length = 1 := by omega
  have hany : ((fetchStatements c).any fun statement => decide (statement.exp < now)) = false := by
    rw [List.any_eq_false]
    intro s hs
    simpa using hexp s hs
  simp [h0, h1, hany, hleaf, hcomb]

/-- Witness for C7: the subject asserts organization_name A, the immediate
superior asserts contacts, the superior's fixed-value policy forces
organization_name Org; the applicator receives the merged object and the
emitted TrustChain carries the policy-resolved metadata. -/
theorem general_path_applies_policy_to_merged_metadata_witness :
    resolveTrustChains specPolicies 0
      (fun _ => [valuePolicyStatementFx, cleanStatementFx]) [[leafConfigFx, anchorConfigFx]] =
      .ok
      [{ valid := true
         chain := [valuePolicyStatementFx, cleanStatementFx]
         trustAnchorEntityConfiguration := anchorConfigFx
         rawLeafEntityConfiguration := leafConfigFx
         resolvedLeafMetadata :=
           some [("openid_provider",
             [("organization_name", .str "Org"), ("contacts", .str "ops@example.org")])] }] := by
  have hchar := general_path_applies_policy_to_merged_metadata specPolicies 0
    (fun _ => [valuePolicyStatementFx, cleanStatementFx]) [leafConfigFx, anchorConfigFx]
    leafConfigFx [("openid_provider", [("organization_name", [("value", .str "Org")])])]
    (by decide) (by decide) rfl (by decide)
  rw [resolveTrustChains, hchar]
  decide

/-- C8: every temporal check in one resolution pass uses the single clock
reading taken at call start; two clocks that agree on that first reading —
however much they drift afterwards — produce identical results. -/
theorem resolveTrustChains_single_clock_snapshot (P : Policies)
    (clock clock2 : Nat → Int)
    (fetchStatements : List EntityConfigurationClaims → List EntityStatementClaims)
    (chains : List (List EntityConfigurationClaims))
    (h : clock 0 = clock2 0) :
    resolveTrustChainsWithClock P clock fetchStatements chains =
      resolveTrustChainsWithClock P clock2 fetchStatements chains := by
  unfold resolveTrustChainsWithClock
  rw [h]

/-- Witness for C8: a frozen clock and a drifting clock with the same
start instant resolve the same chains to the same result. -/
theorem resolveTrustChains_single_clock_snapshot_witness :
    (fun _ : Nat => (0 : Int)) 0 = (fun n : Nat => (n : Int)) 0 ∧
    resolveTrustChainsWithClock specPolicies (fun _ => 0)
      (fun _ => [cleanStatementFx]) [[leafConfigFx]] =
    resolveTrustChainsWithClock specPolicies (fun n => (n : Int))
      (fun _ => [cleanStatementFx]) [[leafConfigFx]] :=
  ⟨rfl,
    resolveTrustChains_single_clock_snapshot specPolicies (fun _ => 0) (fun n => (n : Int))
      (fun _ => [cleanStatementFx]) [[leafConfigFx]] rfl⟩

/-- In a duplicate-free list of optional key ids, every element's first
index — as computed by the boolean-equality indexOf the schema check
uses — is its own position. -/
theorem indexOf_getElem_of_nodup (l : List (Option String)) :
    l.Nodup → ∀ (i : Nat) (hi : i < l.length), l.indexOf l[i] = i := by
  induction l with
  | nil => intro _ i hi; simp at hi
  | cons a tl ih =>
    intro hl i hi
    cases i with
    | zero => simp [List.indexOf_cons]
    | succ n =>
      have hn : n < tl.length := by simpa using hi
      rw [List.getElem_cons_succ]
      have hmem : tl[n] ∈ tl := List.getElem_mem hn
      have hne : a ≠ tl[n] := fun he => (List.nodup_cons.mp hl).1 (he ▸ hmem)
      have hb : (a == tl[n]) = false := beq_eq_false_iff_ne.mpr hne
      have hstep : (a :: tl).indexOf tl[n] = tl.indexOf tl[n] + 1 := by
        simp [List.indexOf_cons, hb]
      rw [hstep, ih (List.nodup_cons.mp hl).2 n hn]

/-- The enum-indexOf duplicate scan raises no issue exactly when the list
of (optional) key ids has no duplicate; absent ids compare equal to each
other, like undefined does under strict equality. -/
theorem duplicateScan_eq_false_iff_nodup (l : List (Option String)) :
    ((l.enum.any fun p => l.indexOf p.2 ≠ p.1) = false) ↔ l.Nodup := by
  constructor
  · intro h
    rw [List.any_eq_false] at h
    rw [List.nodup_iff_injective_getElem]
    intro i j hij
    simp only at hij
    have hi := h (i.1, l[i.1])
      (by rw [List.mem_enum_iff_getElem?]; exact List.getElem?_eq_some.mpr ⟨i.2, rfl⟩)
    have hj := h (j.1, l[j.1])
      (by rw [List.mem_enum_iff_getElem?]; exact List.getElem?_eq_some.mpr ⟨j.2, rfl⟩)
    have hi2 : l.indexOf l[i.1] = i.1 := by
      by_contra hne
      exact hi (decide_eq_true hne)
    have hj2 : l.indexOf l[j.1] = j.1 := by
      by_contra hne
      exact hj (decide_eq_true hne)
    apply Fin.ext
    rw [← hi2, ← hj2, hij]
  · intro h
    rw [List.any_eq_false]
    intro p hp
    rw [List.mem_enum_iff_getElem?] at hp
    obtain ⟨hlt, heq⟩ := List.getElem?_eq_some.mp hp
    have hidx : l.indexOf p.2 = p.1 := by
      rw [← heq]
      exact indexOf_getElem_of_nodup l h p.1 hlt
    simp [hidx]

/-- The schema accepts a claims object exactly when its listed key ids,
absent ones included, are pairwise distinct. -/
theorem entityStatementAccepts_iff_nodup (data : EntityStatementClaims) :
    entityStatementClaimsSchemaAccepts data = true ↔
      (data.jwks.keys.map (fun key => key.kid)).Nodup := by
  unfold entityStatementClaimsSchemaAccepts jwksHasDuplicateKeyIds
  rw [Bool.not_eq_true']
  exact duplicateScan_eq_false_iff_nodup _

/-- Two positions carrying the same optional kid force rejection. -/
theorem accepts_eq_false_of_dup_kid (data : EntityStatementClaims)
    (i j : Nat) (hi : i < data.jwks.keys.length) (hj : j < data.jwks.keys.length)
    (hij : i ≠ j) (hkid : (data.jwks.keys[i]).kid = (data.jwks.keys[j]).kid) :
    entityStatementClaimsSchemaAccepts data = false := by
  by_contra hacc
  rw [Bool.not_eq_false] at hacc
  have hnd := (entityStatementAccepts_iff_nodup data).mp hacc
  have hmi : i < (data.jwks.keys.map (fun key => key.kid)).length := by simpa using hi
  have hmj : j < (data.jwks.keys.map (fun key => key.kid)).length := by simpa using hj
  have hme : (data.jwks.keys.map (fun key => key.kid))[i] =
      (data.jwks.keys.map (fun key => key.kid))[j] := by
    rw [List.getElem_map, List.getElem_map]
    exact hkid
  exact hij (hnd.getElem_inj_iff.mp hme)

/-- C9: whenever the entity statement schema accepts a claims object, the
key identifiers in its jwks key set are pairwise distinct, and a key set
holding two keys with the same kid is rejected. -/
theorem entityStatement_kids_pairwise_distinct (data : EntityStatementClaims) :
    (entityStatementClaimsSchemaAccepts data = true →
      ∀ (i j : Nat) (hi : i < data.jwks.keys.length) (hj : j < data.jwks.keys.length),
        i ≠ j → (data.jwks.keys[i]).kid ≠ (data.jwks.keys[j]).kid) ∧
    (∀ (i j : Nat) (hi : i < data.jwks.keys.length) (hj : j < data.jwks.keys.length),
      i ≠ j → (data.jwks.keys[i]).kid = (data.jwks.keys[j]).kid →
      entityStatementClaimsSchemaAccepts data = false) := by
  constructor
  · intro hacc i j hi hj hij hkid
    have hfalse := accepts_eq_false_of_dup_kid data i j hi hj hij hkid
    rw [hacc] at hfalse
    cases hfalse
  · exact fun i j hi hj hij hkid => accepts_eq_false_of_dup_kid data i j hi hj hij hkid

/-- A claims object whose two keys share the kid k1. -/
def dupKidStatementFx : EntityStatementClaims :=
  { cleanStatementFx with jwks := { keys :=
      [{ kty := "EC", kid := some "k1" }, { kty := "RSA", kid := some "k1" }] } }

/-- A claims object whose two keys carry distinct kids. -/
def distinctKidStatementFx : EntityStatementClaims :=
  { cleanStatementFx with jwks := { keys :=
      [{ kty := "EC", kid := some "k1" }, { kty := "RSA", kid := some "k2" }] } }

/-- Witness for C9: the duplicate-kid object is rejected; on an accepted
object the two kids are distinct. -/
theorem entityStatement_kids_pairwise_distinct_witness :
    entityStatementClaimsSchemaAccepts dupKidStatementFx = false ∧
    (distinctKidStatementFx.jwks.keys.get ⟨0, by decide⟩).kid ≠
      (distinctKidStatementFx.jwks.keys.get ⟨1, by decide⟩).kid :=
  ⟨(entityStatement_kids_pairwise_distinct dupKidStatementFx).2 0 1 (by decide) (by decide)
      (by decide) (by decide),
   (entityStatement_kids_pairwise_distinct distinctKidStatementFx).1 (by decide) 0 1
      (by decide) (by decide) (by decide)⟩

/-- C10: a key set with two keys that both lack a kid is rejected, because
the absent identifiers compare equal in the duplicate check. -/
theorem entityStatement_rejects_kidless_pair (data : EntityStatementClaims)
    (i j : Nat) (hi : i < data.jwks.keys.length) (hj : j < data.jwks.keys.length)
    (hij : i ≠ j)
    (hki : (data.jwks.keys[i]).kid = none) (hkj : (data.jwks.keys[j]).kid = none) :
    entityStatementClaimsSchemaAccepts data = false :=
  accepts_eq_false_of_dup_kid data i j hi hj hij (by rw [hki, hkj])

/-- A claims object with two keys, neither declaring a kid. -/
def kidlessStatementFx : EntityStatementClaims :=
  { cleanStatementFx with jwks := { keys :=
      [{ kty := "EC", kid := none }, { kty := "RSA", kid := none }] } }

/-- Witness for C10: the two-kidless-keys object is rejected. -/
theorem entityStatement_rejects_kidless_pair_witness :
    entityStatementClaimsSchemaAccepts kidlessStatementFx = false :=
  entityStatement_rejects_kidless_pair kidlessStatementFx 0 1 (by decide) (by decide)
    (by decide) (by decide) (by decide)

/-- Witness for C5 (amended): the unrecognised critical operator sits in
the first statement — inside the combined sub-sequence — so combination
fails with the distinct critical condition and the candidate is dropped. -/
theorem combine_crit_unsupported_excludes_candidate_witness :
    combineMetadataPoliciesSpec [critTerminalStatementFx] = .error .critUnsupported ∧
    CombineError.critUnsupported ≠ CombineError.operatorMerge ∧
    processCandidate
      { combineMetadataPolicies := combineMetadataPoliciesSpec
        applyMetadataPolicyToMetadata := applyMetadataPolicyToMetadataSpec
        mergeMetadata := mergeMetadataSpec } 0
      (fun _ => [critTerminalStatementFx, cleanStatementFx]) [leafConfigFx, anchorConfigFx] =
      .ok none :=
  combine_crit_unsupported_excludes_candidate applyMetadataPolicyToMetadataSpec
    mergeMetadataSpec 0 (fun _ => [critTerminalStatementFx, cleanStatementFx])
    [leafConfigFx, anchorConfigFx] critTerminalStatementFx "frobnicate"
    (by decide) (by decide) (by decide) (by decide)
